import Mathlib

/-!
Verification of the ATL reverse-mode automatic differentiation core
(`Variable.hpp_bckup2`, `Sinh.hpp`, `Cosh.hpp`) against its natural-language
specification.  The tape machinery is embedded shallowly over an arbitrary
linear ordered field standing for `REAL_T`; the transcendental operator
nodes and the parameter transformations are embedded over the reals.
Heap-resident `VariableInfo` objects are keyed by their unique ids, and an
expression node is represented by the answers it gives to the uniform
node contract queries (value, derivative evaluations, leaf enumeration).
-/

set_option linter.unusedSectionVars false

namespace ATL

/-- The derivative trace modes of the gradient structure.  The eight named
enumerators come from the source; `OUT_OF_RANGE` models a value of the
underlying integer type that is not one of the enumerators (a C++ enum can
carry such a value), which is what the `default:` arm of the dispatch
switch in `Variable::Assign_p` handles. -/
inductive DerivativeTraceLevel where
  | FIRST_ORDER
  | SECOND_ORDER
  | THIRD_ORDER
  | SECOND_ORDER_MIXED_PARTIALS
  | THIRD_ORDER_MIXED_PARTIALS
  | GRADIENT
  | GRADIENT_AND_HESSIAN
  | DYNAMIC_RECORD
  | OUT_OF_RANGE (v : Nat)
  deriving DecidableEq

/-- One heap-resident leaf record (`atl::VariableInfo`).  Reference counting
and the name label are dropped: no claim observes them. -/
structure VariableInfo (R : Type) where
  id : Nat
  vvalue : R
  dvalue : R
  is_dependent : Nat
  is_nl : Bool
  has_nl_interaction : Bool
  dependence_level : Nat
  push_start : Nat
  dependencies : List Nat

/-- The heap of live `VariableInfo` objects, keyed by their unique ids
(ids are never reused while an info is live, so pointer identity and id
identity coincide). -/
abbrev Heap (R : Type) := Nat → VariableInfo R

/-- Point update of one info record in the heap. -/
def Heap.upd {R : Type} (h : Heap R) (i : Nat) (f : VariableInfo R → VariableInfo R) :
    Heap R :=
  fun j => if j = i then f (h j) else h j

/-- Ordered deduplicating insert of `atl::IDSet`: a new element is appended,
an element already present is ignored. -/
def idsetInsert (s : List Nat) (x : Nat) : List Nat :=
  if x ∈ s then s else s ++ [x]

/-- Insert every element of `xs` in order (the effect of an expression
walking `PushIds` over a set). -/
def idsetInsertAll (s : List Nat) (xs : List Nat) : List Nat :=
  xs.foldl idsetInsert s

/-- `std::vector::resize(n, fill)`: keep the first `n` elements, pad with
`fill` up to length `n`. -/
def resizeFill {R : Type} (v : List R) (n : Nat) (fill : R) : List R :=
  v.take n ++ List.replicate (n - v.length) fill

/-- One tape record (`atl::StackEntry`).  `w` is the id of the dependent
info; the derivative buffers are row-major as in the source; `exp` records
whether the optional owned dynamic-expression clone is present. -/
structure StackEntry (R : Type) where
  w : Option Nat
  ids : List Nat
  first : List R
  second : List R
  third : List R
  second_mixed : List R
  third_mixed : List R
  exp : Bool

/-- An expression node, abstracted to the answers it gives to the
`ExpressionBase` contract queries used by `Variable::Assign_p`:
its forward value, the leaf ids `PushIds` inserts (in insertion order),
the three `EvaluateDerivative` overloads, the nonlinearity flag and the
heap effect of `MakeNLInteractions`. -/
structure Expression (R : Type) where
  GetValue : R
  PushIdsList : List Nat
  EvaluateDerivative1 : Nat → R
  EvaluateDerivative2 : Nat → Nat → R
  EvaluateDerivative3 : Nat → Nat → Nat → R
  IsNonlinear : Bool
  MakeNLInteractions : Heap R → Heap R

/-- Modelled from the spec: `GradientStructure.hpp` is not among the
provided sources.  Fields follow spec section 3 (recording gate, trace
mode, observed id range, and the tape) and the uses in
`Variable.hpp_bckup2`: `NextIndex()` is a monotonic cursor returning the
next free tape slot, and `gs.gradient_stack[index]` indexes preallocated
`StackEntry` slots, modelled as a total function from slot index. -/
structure GradientStructure (R : Type) where
  recording : Bool
  derivative_trace_level : DerivativeTraceLevel
  stack_current : Nat
  gradient_stack : Nat → StackEntry R
  min_id : Nat
  max_id : Nat

/-- Modelled from the spec: the monotonic cursor `NextIndex()` returns the
next free tape slot and advances. -/
def GradientStructure.NextIndex {R : Type} (gs : GradientStructure R) :
    Nat × GradientStructure R :=
  (gs.stack_current, { gs with stack_current := gs.stack_current + 1 })

/-- Write the (mutated) entry back into its tape slot. -/
def GradientStructure.setEntry {R : Type} (gs : GradientStructure R) (i : Nat)
    (e : StackEntry R) : GradientStructure R :=
  { gs with gradient_stack := fun j => if j = i then e else gs.gradient_stack j }

/-- The per-handle fields of `atl::Variable`: the id of its heap info and
the bound state.  (The transformation pointer is kept outside the tape
model; see the transformation section below.) -/
structure Var (R : Type) where
  info : Nat
  bounded_m : Bool
  min_boundary_m : R
  max_boundary_m : R

variable {R : Type} [LinearOrderedField R]

/-- `Variable::SetValue`.  Unbounded: store the value.  Bounded: a
non-self-equal value (the IEEE NaN test `value != value`, never true in an
ordered field) is replaced by the midpoint, values below/above the
boundaries are clamped to them, and in-range values are stored. -/
def Var.SetValue (v : Var R) (h : Heap R) (value : R) : Heap R :=
  if ¬ v.bounded_m then
    Heap.upd h v.info (fun info => { info with vvalue := value })
  else if value ≠ value then
    Heap.upd h v.info (fun info =>
      { info with vvalue := v.min_boundary_m + (v.max_boundary_m - v.min_boundary_m) / 2 })
  else if value < v.min_boundary_m then
    Heap.upd h v.info (fun info => { info with vvalue := v.min_boundary_m })
  else if value > v.max_boundary_m then
    Heap.upd h v.info (fun info => { info with vvalue := v.max_boundary_m })
  else
    Heap.upd h v.info (fun info => { info with vvalue := value })

/-- `Variable::SetBounds`: mark bounded, store the boundaries, and when the
current value is below the new minimum, above the new maximum or exactly
zero, `SetValue` the midpoint of the new bounds (under the now-active
clamping). -/
def Var.SetBounds (v : Var R) (h : Heap R) (minb maxb : R) : Var R × Heap R :=
  let v1 : Var R :=
    { v with bounded_m := true, min_boundary_m := minb, max_boundary_m := maxb }
  if (h v.info).vvalue < minb ∨ (h v.info).vvalue > maxb ∨ (h v.info).vvalue = 0 then
    (v1, v1.SetValue h ((minb + maxb) / 2))
  else
    (v1, h)

/-- Loop of the `FIRST_ORDER` arm: per independent leaf, widen the
`max_id`/`min_id` range and store the first partial. -/
def firstOrderLoop (E : Expression R) :
    List Nat → Nat → StackEntry R → Nat → Nat → StackEntry R × Nat × Nat
  | [], _, entry, mn, mx => (entry, mn, mx)
  | x :: rest, i, entry, mn, mx =>
    let mx1 := if x > mx then x else mx
    let mn1 := if x < mn then x else mn
    let entry1 := { entry with first := entry.first.set i (E.EvaluateDerivative1 x) }
    firstOrderLoop E rest (i + 1) entry1 mn1 mx1

/-- Loop of the `GRADIENT` arm: store each first partial (the id range is
not touched in this arm). -/
def gradientLoop (E : Expression R) :
    List Nat → Nat → StackEntry R → StackEntry R
  | [], _, entry => entry
  | x :: rest, i, entry =>
    let entry1 := { entry with first := entry.first.set i (E.EvaluateDerivative1 x) }
    gradientLoop E rest (i + 1) entry1

/-- Inner loop of the `GRADIENT_AND_HESSIAN` arm: walk `entry.ids` with
counter `j`, store `second_mixed[i*n+j]`, mirror into `[j*n+i]` when
`i > 0 && i != j`, and break once `j == i`. -/
def ghInnerLoop (E : Expression R) (xi nfirst i : Nat) :
    List Nat → Nat → StackEntry R → StackEntry R
  | [], _, entry => entry
  | xj :: rest, j, entry =>
    let dxx := E.EvaluateDerivative2 xi xj
    let sm1 := entry.second_mixed.set (i * nfirst + j) dxx
    let sm2 := if 0 < i ∧ i ≠ j then sm1.set (j * nfirst + i) dxx else sm1
    let entry1 := { entry with second_mixed := sm2 }
    if j = i then entry1 else ghInnerLoop E xi nfirst i rest (j + 1) entry1

/-- Outer loop of the `GRADIENT_AND_HESSIAN` arm: per independent leaf,
bump its `dependence_level`, store the first partial, and run the
triangular inner loop. -/
def ghOuterLoop (E : Expression R) (nfirst : Nat) (allIds : List Nat) :
    List Nat → Nat → StackEntry R → Heap R → StackEntry R × Heap R
  | [], _, entry, h => (entry, h)
  | xi :: rest, i, entry, h =>
    let h1 := Heap.upd h xi (fun info =>
      { info with dependence_level := info.dependence_level + 1 })
    let entry1 := { entry with first := entry.first.set i (E.EvaluateDerivative1 xi) }
    let entry2 := ghInnerLoop E xi nfirst i allIds 0 entry1
    ghOuterLoop E nfirst allIds rest (i + 1) entry2 h1

/-- Inner loop of the `SECOND_ORDER_MIXED_PARTIALS` arm: full row with the
symmetric mirror store, no break. -/
def somInnerLoop (E : Expression R) (xi nfirst i : Nat) :
    List Nat → Nat → StackEntry R → StackEntry R
  | [], _, entry => entry
  | xj :: rest, j, entry =>
    let dxx := E.EvaluateDerivative2 xi xj
    let sm1 := entry.second_mixed.set (i * nfirst + j) dxx
    let sm2 := if 0 < i ∧ i ≠ j then sm1.set (j * nfirst + i) dxx else sm1
    somInnerLoop E xi nfirst i rest (j + 1) { entry with second_mixed := sm2 }

/-- Outer loop of the `SECOND_ORDER_MIXED_PARTIALS` arm: record each leaf
in the dependent info's dependency set, stamp `push_start` on leaves in a
nonlinear context, bump `dependence_level`, store the first partial and
fill the mixed row. -/
def somOuterLoop (E : Expression R) (nfirst : Nat) (allIds : List Nat)
    (wid index : Nat) :
    List Nat → Nat → StackEntry R → Heap R → StackEntry R × Heap R
  | [], _, entry, h => (entry, h)
  | xi :: rest, i, entry, h =>
    let h1 := Heap.upd h wid (fun info =>
      { info with dependencies := idsetInsert info.dependencies xi })
    let h2 :=
      if (h1 xi).has_nl_interaction ∨ (h1 xi).is_nl then
        Heap.upd h1 xi (fun info => { info with push_start := index })
      else h1
    let h3 := Heap.upd h2 xi (fun info =>
      { info with dependence_level := info.dependence_level + 1 })
    let entry1 := { entry with first := entry.first.set i (E.EvaluateDerivative1 xi) }
    let entry2 := somInnerLoop E xi nfirst i allIds 0 entry1
    somOuterLoop E nfirst allIds wid index rest (i + 1) entry2 h3

/-- Innermost loop of the `THIRD_ORDER_MIXED_PARTIALS` arm: fill one line
of the third-order tensor. -/
def tomKLoop (E : Expression R) (xi xj nfirst i j : Nat) :
    List Nat → Nat → StackEntry R → StackEntry R
  | [], _, entry => entry
  | xk :: rest, k, entry =>
    let dxxx := E.EvaluateDerivative3 xi xj xk
    let tm := entry.third_mixed.set (i * nfirst * nfirst + j * nfirst + k) dxxx
    tomKLoop E xi xj nfirst i j rest (k + 1) { entry with third_mixed := tm }

/-- Middle loop of the `THIRD_ORDER_MIXED_PARTIALS` arm: store the mixed
second partial (no mirror in this arm) and fill the tensor line. -/
def tomJLoop (E : Expression R) (xi nfirst i : Nat) (allIds : List Nat) :
    List Nat → Nat → StackEntry R → StackEntry R
  | [], _, entry => entry
  | xj :: rest, j, entry =>
    let dxx := E.EvaluateDerivative2 xi xj
    let entry1 := { entry with second_mixed := entry.second_mixed.set (i * nfirst + j) dxx }
    let entry2 := tomKLoop E xi xj nfirst i j allIds 0 entry1
    tomJLoop E xi nfirst i allIds rest (j + 1) entry2

/-- Outer loop of the `THIRD_ORDER_MIXED_PARTIALS` arm. -/
def tomOuterLoop (E : Expression R) (nfirst : Nat) (allIds : List Nat)
    (wid index : Nat) :
    List Nat → Nat → StackEntry R → Heap R → StackEntry R × Heap R
  | [], _, entry, h => (entry, h)
  | xi :: rest, i, entry, h =>
    let h1 := Heap.upd h wid (fun info =>
      { info with dependencies := idsetInsert info.dependencies xi })
    let h2 :=
      if (h1 xi).has_nl_interaction ∨ (h1 xi).is_nl then
        Heap.upd h1 xi (fun info => { info with push_start := index })
      else h1
    let h3 := Heap.upd h2 xi (fun info =>
      { info with dependence_level := info.dependence_level + 1 })
    let entry1 := { entry with first := entry.first.set i (E.EvaluateDerivative1 xi) }
    let entry2 := tomJLoop E xi nfirst i allIds allIds 0 entry1
    tomOuterLoop E nfirst allIds wid index rest (i + 1) entry2 h3

/-- Loop of the `DYNAMIC_RECORD` arm: bump each independent leaf's
`dependence_level`. -/
def dynLoop : List Nat → Heap R → Heap R
  | [], h => h
  | xi :: rest, h =>
    dynLoop rest (Heap.upd h xi (fun info =>
      { info with dependence_level := info.dependence_level + 1 }))

/-- `Variable::Assign_p`, the record-and-assign procedure.  When recording,
a slot is claimed from the `NextIndex` cursor, the entry's id set and
`first` buffer are prepared, and the dispatch on the trace level runs; the
unimplemented diagonal modes and an out-of-enumeration level print a
diagnostic and `exit(0)`, modelled as `Except.error` carrying the printed
message.  Afterwards (and also when not recording) the target variable's
value is set to the expression's forward value.

Note the statement `this->info->is_dependent++;` of the source stands
before the first `case` label of the switch, so it is unreachable and no
arm of this function performs it. -/
def Assign_p (gs : GradientStructure R) (h : Heap R) (v : Var R) (E : Expression R) :
    Except String (GradientStructure R × Heap R) :=
  if gs.recording then
    let nr := gs.NextIndex
    let index := nr.1
    let gs1 := nr.2
    let entry0 := gs.gradient_stack index
    let entry1 := { entry0 with ids := idsetInsertAll entry0.ids E.PushIdsList }
    let n := entry1.ids.length
    let entry2 := { entry1 with first := resizeFill entry1.first n 0 }
    match gs.derivative_trace_level with
    | DerivativeTraceLevel.FIRST_ORDER =>
      let entry3 := { entry2 with w := some v.info }
      let r := firstOrderLoop E entry2.ids 0 entry3 gs.min_id gs.max_id
      let gs2 := { gs1 with min_id := r.2.1, max_id := r.2.2 }
      Except.ok (gs2.setEntry index r.1, v.SetValue h E.GetValue)
    | DerivativeTraceLevel.SECOND_ORDER =>
      Except.error "\"SECOND_ORDER\" not yet available!"
    | DerivativeTraceLevel.THIRD_ORDER =>
      Except.error "\"THIRD_ORDER\" not yet available!"
    | DerivativeTraceLevel.SECOND_ORDER_MIXED_PARTIALS =>
      let entry3 := { entry2 with w := some v.info }
      let h1 := Heap.upd h v.info (fun info => { info with is_dependent := 1 })
      let h2 := Heap.upd h1 v.info (fun info => { info with is_nl := E.IsNonlinear })
      let entry4 := { entry3 with
        second_mixed := resizeFill entry3.second_mixed (n * n) 0 }
      let h3 := E.MakeNLInteractions h2
      let r := somOuterLoop E n entry4.ids v.info index entry4.ids 0 entry4 h3
      let h4 := Heap.upd r.2 v.info (fun info =>
        { info with dependence_level := info.dependence_level + 1 })
      Except.ok (gs1.setEntry index r.1, v.SetValue h4 E.GetValue)
    | DerivativeTraceLevel.THIRD_ORDER_MIXED_PARTIALS =>
      let entry3 := { entry2 with w := some v.info }
      let h1 := Heap.upd h v.info (fun info => { info with is_dependent := 1 })
      let h2 := Heap.upd h1 v.info (fun info => { info with is_nl := E.IsNonlinear })
      let entry4 := { entry3 with
        second_mixed := resizeFill entry3.second_mixed (n * n) 0,
        third_mixed := resizeFill entry3.third_mixed (n * n * n) 0 }
      let h3 := E.MakeNLInteractions h2
      let r := tomOuterLoop E n entry4.ids v.info index entry4.ids 0 entry4 h3
      Except.ok (gs1.setEntry index r.1, v.SetValue r.2 E.GetValue)
    | DerivativeTraceLevel.GRADIENT =>
      let entry3 := { entry2 with w := some v.info }
      let entry4 := gradientLoop E entry2.ids 0 entry3
      Except.ok (gs1.setEntry index entry4, v.SetValue h E.GetValue)
    | DerivativeTraceLevel.GRADIENT_AND_HESSIAN =>
      let entry3 := { entry2 with
        w := some v.info,
        second_mixed := resizeFill entry2.second_mixed (n * n) 0 }
      let r := ghOuterLoop E n entry3.ids entry3.ids 0 entry3 h
      Except.ok (gs1.setEntry index r.1, v.SetValue r.2 E.GetValue)
    | DerivativeTraceLevel.DYNAMIC_RECORD =>
      let entry3 := { entry2 with w := some v.info }
      let h1 := dynLoop entry3.ids h
      let entry4 := { entry3 with exp := true }
      Except.ok (gs1.setEntry index entry4, v.SetValue h1 E.GetValue)
    | DerivativeTraceLevel.OUT_OF_RANGE _ =>
      Except.error "Unkown derivative trace level."
  else
    Except.ok (gs, v.SetValue h E.GetValue)

/-- `Variable::operator=(const REAL_T&)`: only `SetValue` runs; the
gradient structure is not consulted, which the model expresses by passing
the tape through unchanged. -/
def assignScalar (gs : GradientStructure R) (h : Heap R) (v : Var R) (value : R) :
    GradientStructure R × Heap R :=
  (gs, v.SetValue h value)

/-!
The `Sinh` and `Cosh` operator nodes.  A node holds one inner expression
`g`; it is represented here by the answers the inner node gives to the
contract queries: its current forward value `g` and its three
`EvaluateDerivative` overloads `gd1`, `gd2`, `gd3`.
-/

namespace Sinh

/-- `Sinh::GetValue`. -/
noncomputable def GetValue (g : ℝ) : ℝ := Real.sinh g

/-- `Sinh::EvaluateDerivative(a)`. -/
noncomputable def EvaluateDerivative1 (g : ℝ) (gd1 : Nat → ℝ) (a : Nat) : ℝ :=
  gd1 a * Real.cosh g

/-- `Sinh::EvaluateDerivative(a, b)`. -/
noncomputable def EvaluateDerivative2 (g : ℝ) (gd1 : Nat → ℝ) (gd2 : Nat → Nat → ℝ)
    (a b : Nat) : ℝ :=
  Real.sinh g * gd1 a * gd1 b + Real.cosh g * gd2 a b

/-- `Sinh::EvaluateDerivative(x, y, z)`, with the five summands in source
order. -/
noncomputable def EvaluateDerivative3 (g : ℝ) (gd1 : Nat → ℝ) (gd2 : Nat → Nat → ℝ)
    (gd3 : Nat → Nat → Nat → ℝ) (x y z : Nat) : ℝ :=
  Real.cosh g * gd1 x * gd1 y * gd1 z
    + Real.sinh g * gd2 x y * gd1 z
    + Real.sinh g * gd1 x * gd2 y z
    + Real.sinh g * gd2 x z * gd1 y
    + Real.cosh g * gd3 x y z

end Sinh

namespace Cosh

/-- `Cosh::GetValue` (the value is taken from the inner value captured at
construction; for the derivative claims only the inner current value
matters). -/
noncomputable def GetValue (g : ℝ) : ℝ := Real.cosh g

/-- `Cosh::EvaluateDerivative(a)`. -/
noncomputable def EvaluateDerivative1 (g : ℝ) (gd1 : Nat → ℝ) (a : Nat) : ℝ :=
  gd1 a * Real.sinh g

/-- `Cosh::EvaluateDerivative(a, b)`. -/
noncomputable def EvaluateDerivative2 (g : ℝ) (gd1 : Nat → ℝ) (gd2 : Nat → Nat → ℝ)
    (a b : Nat) : ℝ :=
  Real.cosh g * gd1 a * gd1 b + Real.sinh g * gd2 a b

/-- `Cosh::EvaluateDerivative(x, y, z)`, with the five summands in source
order. -/
noncomputable def EvaluateDerivative3 (g : ℝ) (gd1 : Nat → ℝ) (gd2 : Nat → Nat → ℝ)
    (gd3 : Nat → Nat → Nat → ℝ) (x y z : Nat) : ℝ :=
  Real.sinh g * gd1 x * gd1 y * gd1 z
    + Real.cosh g * gd2 x y * gd1 z
    + Real.cosh g * gd1 x * gd2 y z
    + Real.cosh g * gd2 x z * gd1 y
    + Real.sinh g * gd3 x y z

end Cosh

/-- Modelled from the spec: first-order chain rule for a unary node
`f(g)`, namely `eval_d(a) = fp(g) * g_a` where `fp` is the closed-form
first derivative of `f` evaluated at the inner value. -/
noncomputable def chainRule1 (fp ga : ℝ) : ℝ := fp * ga

/-- Modelled from the spec: second-order chain rule for a unary node,
`eval_d(a,b) = fpp(g)*g_a*g_b + fp(g)*g_ab`. -/
noncomputable def chainRule2 (fp fpp ga gb gab : ℝ) : ℝ := fpp * ga * gb + fp * gab

/-- Modelled from the spec: third-order chain rule for a unary node,
`eval_d(a,b,c) = fppp*g_a*g_b*g_c + fpp*(g_ab*g_c + g_ac*g_b + g_bc*g_a)
+ fp*g_abc`. -/
noncomputable def chainRule3 (fp fpp fppp ga gb gc gab gac gbc gabc : ℝ) : ℝ :=
  fppp * ga * gb * gc + fpp * (gab * gc + gac * gb + gbc * ga) + fp * gabc

/-!
The bounded-parameter transformations attached to variables.
-/

namespace SinParameterTransformation

/-- `SinParameterTransformation::External2Internal`. -/
noncomputable def External2Internal (val min_ max_ : ℝ) : ℝ :=
  Real.arcsin (2 * val / (max_ - min_) - min_ / (max_ - min_) - max_ / (max_ - min_))

/-- `SinParameterTransformation::Internal2External`. -/
noncomputable def Internal2External (val min_ max_ : ℝ) : ℝ :=
  min_ + 0.5 * (max_ - min_) * (Real.sin val + 1)

/-- `SinParameterTransformation::DerivativeInternal2External`. -/
noncomputable def DerivativeInternal2External (val min_ max_ : ℝ) : ℝ :=
  0.5 * ((max_ - min_) * Real.cos val)

end SinParameterTransformation

/-- The real inverse hyperbolic tangent, the mathematical function computed
by `std::atanh` (Mathlib 4.14 does not provide it): for `|x| < 1`,
`atanh x = (1/2) * log ((1+x)/(1-x))`. -/
noncomputable def atanh (x : ℝ) : ℝ := 1 / 2 * Real.log ((1 + x) / (1 - x))

namespace TanhParameterTransformation

/-- `TanhParameterTransformation::Internal2External`:
`std::atanh(2.0 * (val - min_) / (max_ - min_) - 1.0)`. -/
noncomputable def Internal2External (val min_ max_ : ℝ) : ℝ :=
  atanh (2 * (val - min_) / (max_ - min_) - 1)

/-- `TanhParameterTransformation::DerivativeInternal2External`, with the
source's parenthesization kept exactly: the divisor of `2.0 * (val - min_)`
is `max_` alone, and the squared factor is `1 - (...)`, not `1 - (...)^2`. -/
noncomputable def DerivativeInternal2External (val min_ max_ : ℝ) : ℝ :=
  2 / ((max_ - min_) * (1 - (2 * (val - min_) / max_ - min_ - 1)) ^ 2)

end TanhParameterTransformation

/-!
Concrete fixtures over the rationals, used by witnesses and
counterexamples.
-/

/-- A blank info record. -/
def blankInfo : VariableInfo ℚ :=
  { id := 0, vvalue := 0, dvalue := 0, is_dependent := 0, is_nl := false,
    has_nl_interaction := false, dependence_level := 0, push_start := 0,
    dependencies := [] }

/-- A heap where info `i` is blank with id `i`. -/
def witHeap : Heap ℚ := fun i => { blankInfo with id := i }

/-- A fresh, unwritten tape slot. -/
def emptyEntry : StackEntry ℚ :=
  { w := none, ids := [], first := [], second := [], third := [],
    second_mixed := [], third_mixed := [], exp := false }

/-- A variable handle bound to info 9, unbounded. -/
def witVar : Var ℚ := { info := 9, bounded_m := false, min_boundary_m := 0, max_boundary_m := 0 }

/-- An expression with the single leaf 5 and unit first partial. -/
def witE5 : Expression ℚ :=
  { GetValue := 3, PushIdsList := [5], EvaluateDerivative1 := fun _ => 1,
    EvaluateDerivative2 := fun _ _ => 0, EvaluateDerivative3 := fun _ _ _ => 0,
    IsNonlinear := false, MakeNLInteractions := id }

/-- An expression with leaves 1 and 2 and constant unit mixed partials. -/
def witE2 : Expression ℚ :=
  { GetValue := 3, PushIdsList := [1, 2], EvaluateDerivative1 := fun _ => 1,
    EvaluateDerivative2 := fun _ _ => 1, EvaluateDerivative3 := fun _ _ _ => 0,
    IsNonlinear := true, MakeNLInteractions := id }

/-- A recording tape in `FIRST_ORDER` mode with empty slots. -/
def gsFO : GradientStructure ℚ :=
  { recording := true, derivative_trace_level := DerivativeTraceLevel.FIRST_ORDER,
    stack_current := 0, gradient_stack := fun _ => emptyEntry, min_id := 0, max_id := 0 }

/-- A recording tape in `GRADIENT` mode with empty slots. -/
def gsGrad : GradientStructure ℚ :=
  { gsFO with derivative_trace_level := DerivativeTraceLevel.GRADIENT }

/-- A recording tape in `GRADIENT_AND_HESSIAN` mode whose slot buffers are
already sized 2x2 and hold zeros. -/
def gsGH : GradientStructure ℚ :=
  { gsFO with
    derivative_trace_level := DerivativeTraceLevel.GRADIENT_AND_HESSIAN,
    gradient_stack := fun _ => { emptyEntry with second_mixed := [0, 0, 0, 0] } }

/-- A recording tape in `SECOND_ORDER` mode. -/
def gsSO : GradientStructure ℚ :=
  { gsFO with derivative_trace_level := DerivativeTraceLevel.SECOND_ORDER }

/-- A recording tape in `THIRD_ORDER` mode. -/
def gsTO : GradientStructure ℚ :=
  { gsFO with derivative_trace_level := DerivativeTraceLevel.THIRD_ORDER }

/-- A recording tape whose trace level holds an out-of-enumeration value. -/
def gsOOR : GradientStructure ℚ :=
  { gsFO with derivative_trace_level := DerivativeTraceLevel.OUT_OF_RANGE 42 }

/-- The state after recording `witE5` on the `FIRST_ORDER` tape. -/
def postFO : GradientStructure ℚ × Heap ℚ :=
  (Assign_p gsFO witHeap witVar witE5).toOption.getD (gsFO, witHeap)

/-- The state after recording `witE5` on the `GRADIENT` tape. -/
def postGrad : GradientStructure ℚ × Heap ℚ :=
  (Assign_p gsGrad witHeap witVar witE5).toOption.getD (gsGrad, witHeap)

/-- The state after recording `witE2` on the `GRADIENT_AND_HESSIAN` tape. -/
def postGH : GradientStructure ℚ × Heap ℚ :=
  (Assign_p gsGH witHeap witVar witE2).toOption.getD (gsGH, witHeap)

/-!
Helper lemmas.
-/

theorem setEntry_stack_current (gs : GradientStructure R) (i : Nat) (e : StackEntry R) :
    (gs.setEntry i e).stack_current = gs.stack_current := rfl

theorem setEntry_gradient_stack_ne (gs : GradientStructure R) (i : Nat) (e : StackEntry R)
    {j : Nat} (hj : j ≠ i) : (gs.setEntry i e).gradient_stack j = gs.gradient_stack j := by
  simp [GradientStructure.setEntry, hj]

/-- `SetValue` only rewrites the stored primal value: every other field of
every info record is untouched. -/
theorem SetValue_is_dependent (v : Var R) (h : Heap R) (value : R) (x : Nat) :
    (v.SetValue h value x).is_dependent = (h x).is_dependent := by
  have key : ∀ (f : VariableInfo R → VariableInfo R),
      (∀ info, (f info).is_dependent = info.is_dependent) →
      ((Heap.upd h v.info f) x).is_dependent = (h x).is_dependent := by
    intro f hf
    unfold Heap.upd
    by_cases hx : x = v.info <;> simp [hx, hf]
  unfold Var.SetValue
  split_ifs <;> exact key _ (fun _ => rfl)

theorem setEntry_gradient_stack_self (gs : GradientStructure R) (i : Nat)
    (e : StackEntry R) : (gs.setEntry i e).gradient_stack i = e := by
  simp [GradientStructure.setEntry]

/-- The minimum tracked by the `FIRST_ORDER` loop never grows. -/
theorem firstOrderLoop_min_le (E : Expression R) (l : List Nat) :
    ∀ (i : Nat) (entry : StackEntry R) (mn mx : Nat),
      (firstOrderLoop E l i entry mn mx).2.1 ≤ mn := by
  induction l with
  | nil => intro i entry mn mx; exact le_refl mn
  | cons x rest ih =>
    intro i entry mn mx
    simp only [firstOrderLoop]
    refine le_trans (ih _ _ _ _) ?_
    split <;> omega

/-- The maximum tracked by the `FIRST_ORDER` loop never shrinks. -/
theorem firstOrderLoop_max_ge (E : Expression R) (l : List Nat) :
    ∀ (i : Nat) (entry : StackEntry R) (mn mx : Nat),
      mx ≤ (firstOrderLoop E l i entry mn mx).2.2 := by
  induction l with
  | nil => intro i entry mn mx; exact le_refl mx
  | cons x rest ih =>
    intro i entry mn mx
    simp only [firstOrderLoop]
    refine le_trans ?_ (ih _ _ _ _)
    split <;> omega

/-- After the `FIRST_ORDER` loop, the tracked range brackets every
traversed leaf id. -/
theorem firstOrderLoop_bounds (E : Expression R) (l : List Nat) :
    ∀ (i : Nat) (entry : StackEntry R) (mn mx x : Nat), x ∈ l →
      (firstOrderLoop E l i entry mn mx).2.1 ≤ x ∧
      x ≤ (firstOrderLoop E l i entry mn mx).2.2 := by
  induction l with
  | nil => intro i entry mn mx x hx; cases hx
  | cons y rest ih =>
    intro i entry mn mx x hx
    rcases List.mem_cons.mp hx with rfl | hx2
    · simp only [firstOrderLoop]
      constructor
      · exact le_trans (firstOrderLoop_min_le E rest _ _ _ _) (by split <;> omega)
      · exact le_trans (by split <;> omega) (firstOrderLoop_max_ge E rest _ _ _ _)
    · simp only [firstOrderLoop]
      exact ih _ _ _ _ x hx2

/-- The `FIRST_ORDER` loop does not change the entry's id set. -/
theorem firstOrderLoop_ids (E : Expression R) (l : List Nat) :
    ∀ (i : Nat) (entry : StackEntry R) (mn mx : Nat),
      ((firstOrderLoop E l i entry mn mx).1).ids = entry.ids := by
  induction l with
  | nil => intro i entry mn mx; rfl
  | cons y rest ih =>
    intro i entry mn mx
    simp only [firstOrderLoop]
    exact ih _ _ _ _

/-- C1: on a recording tape, scalar assignment (the `operator=` taking a
`REAL_T`) leaves the gradient structure untouched, appending zero entries,
while any completing expression assignment appends exactly one entry: the
`NextIndex` cursor advances by one and every tape slot other than the one
the cursor returned is unchanged. -/
theorem C1_assignment_tape_growth (gs : GradientStructure R) (h : Heap R)
    (v : Var R) (E : Expression R) (c : R) (hrec : gs.recording = true) :
    (assignScalar gs h v c).1 = gs ∧
    ∀ gs2 h2, Assign_p gs h v E = Except.ok (gs2, h2) →
      gs2.stack_current = gs.stack_current + 1 ∧
      ∀ j, j ≠ gs.stack_current → gs2.gradient_stack j = gs.gradient_stack j := by
  refine ⟨rfl, ?_⟩
  intro gs2 h2 heq
  obtain ⟨rec, lvl, sc, stack, mn, mx⟩ := gs
  replace hrec : rec = true := hrec
  subst hrec
  cases lvl <;>
    simp only [Assign_p, GradientStructure.NextIndex, Bool.true_eq, if_true,
      Except.ok.injEq, Prod.mk.injEq, reduceCtorEq] at heq <;>
    obtain ⟨rfl, rfl⟩ := heq <;>
    exact ⟨rfl, fun j hj => setEntry_gradient_stack_ne _ _ _ hj⟩

/-- C1 witness: recording the one-leaf expression on the fresh
`FIRST_ORDER` tape advances the cursor from 0 to 1, and scalar assignment
leaves the tape exactly as it was. -/
theorem C1_assignment_tape_growth_witness :
    (assignScalar gsFO witHeap witVar (3 : ℚ)).1 = gsFO ∧
    postFO.1.stack_current = gsFO.stack_current + 1 := by
  have h := C1_assignment_tape_growth gsFO witHeap witVar witE5 3 rfl
  exact ⟨h.1, (h.2 postFO.1 postFO.2 rfl).1⟩

/-- C2: under `FIRST_ORDER` the recorded assignment leaves every info's
`is_dependent` counter unchanged — the increment statement of the source
stands before the first `case` label of the dispatch switch and is
unreachable, so contrary to the claim no increment is performed. -/
theorem C2_first_order_is_dependent_unchanged (gs : GradientStructure R) (h : Heap R)
    (v : Var R) (E : Expression R) (hrec : gs.recording = true)
    (hlvl : gs.derivative_trace_level = DerivativeTraceLevel.FIRST_ORDER) :
    ∀ gs2 h2, Assign_p gs h v E = Except.ok (gs2, h2) →
      ∀ x, (h2 x).is_dependent = (h x).is_dependent := by
  intro gs2 h2 heq x
  obtain ⟨rec, lvl, sc, stack, mn, mx⟩ := gs
  replace hrec : rec = true := hrec
  replace hlvl : lvl = DerivativeTraceLevel.FIRST_ORDER := hlvl
  subst hrec
  subst hlvl
  simp only [Assign_p, GradientStructure.NextIndex, if_true, Bool.true_eq,
    Except.ok.injEq, Prod.mk.injEq] at heq
  obtain ⟨-, rfl⟩ := heq
  exact SetValue_is_dependent _ _ _ _

/-- C2 witness: info 9 is the dependent of the recorded `FIRST_ORDER`
assignment and its `is_dependent` counter is the same before and after. -/
theorem C2_first_order_is_dependent_unchanged_witness :
    (postFO.2 9).is_dependent = (witHeap 9).is_dependent :=
  C2_first_order_is_dependent_unchanged gsFO witHeap witVar witE5 rfl rfl
    postFO.1 postFO.2 rfl 9

/-- C3: on a recording tape, an assignment under the unimplemented
diagonal modes `SECOND_ORDER` and `THIRD_ORDER` terminates fatally with a
diagnostic naming the mode, and an out-of-enumeration trace level
terminates fatally with the unknown-level diagnostic; no partial result is
returned in either case. -/
theorem C3_unimplemented_modes_fatal (gs : GradientStructure R) (h : Heap R)
    (v : Var R) (E : Expression R) (hrec : gs.recording = true) :
    (gs.derivative_trace_level = DerivativeTraceLevel.SECOND_ORDER →
      Assign_p gs h v E = Except.error "\"SECOND_ORDER\" not yet available!") ∧
    (gs.derivative_trace_level = DerivativeTraceLevel.THIRD_ORDER →
      Assign_p gs h v E = Except.error "\"THIRD_ORDER\" not yet available!") ∧
    ∀ m, gs.derivative_trace_level = DerivativeTraceLevel.OUT_OF_RANGE m →
      Assign_p gs h v E = Except.error "Unkown derivative trace level." := by
  refine ⟨fun hlvl => ?_, fun hlvl => ?_, fun m hlvl => ?_⟩ <;>
    simp [Assign_p, hrec, hlvl]

/-- C3 witness: the three fatal outcomes at concrete recording tapes. -/
theorem C3_unimplemented_modes_fatal_witness :
    Assign_p gsSO witHeap witVar witE5 = Except.error "\"SECOND_ORDER\" not yet available!" ∧
    Assign_p gsTO witHeap witVar witE5 = Except.error "\"THIRD_ORDER\" not yet available!" ∧
    Assign_p gsOOR witHeap witVar witE5 = Except.error "Unkown derivative trace level." :=
  ⟨(C3_unimplemented_modes_fatal gsSO witHeap witVar witE5 rfl).1 rfl,
   (C3_unimplemented_modes_fatal gsTO witHeap witVar witE5 rfl).2.1 rfl,
   (C3_unimplemented_modes_fatal gsOOR witHeap witVar witE5 rfl).2.2 42 rfl⟩

/-- Row-major cell indices with in-range column components are injective. -/
theorem cell_index_inj {n a b c d : Nat} (hb : b < n) (hd : d < n) :
    a * n + b = c * n + d ↔ a = c ∧ b = d := by
  constructor
  · intro hcell
    rcases Nat.lt_trichotomy a c with hlt | heq | hgt
    · have hmul : (a + 1) * n ≤ c * n := Nat.mul_le_mul_right n (by omega)
      have hexp : (a + 1) * n = a * n + n := by ring
      omega
    · refine ⟨heq, ?_⟩
      subst heq
      omega
    · have hmul : (c + 1) * n ≤ a * n := Nat.mul_le_mul_right n (by omega)
      have hexp : (c + 1) * n = c * n + n := by ring
      omega
  · rintro ⟨rfl, rfl⟩
    rfl

/-- A row-major cell with in-range components lies inside the buffer. -/
theorem cell_index_lt {n a b : Nat} (ha : a < n) (hb : b < n) : a * n + b < n * n :=
  calc a * n + b < a * n + n := by omega
    _ = (a + 1) * n := by ring
    _ ≤ n * n := Nat.mul_le_mul_right n (by omega)

theorem resizeFill_length (v : List R) (n : Nat) (f : R) :
    (resizeFill v n f).length = n := by
  simp only [resizeFill, List.length_append, List.length_take, List.length_replicate]
  omega

/-- The triangular inner loop only rewrites the mixed buffer; its length is
preserved. -/
theorem ghInnerLoop_length (E : Expression R) (xi n i : Nat) :
    ∀ (js : List Nat) (j : Nat) (entry : StackEntry R),
      (ghInnerLoop E xi n i js j entry).second_mixed.length =
        entry.second_mixed.length := by
  intro js
  induction js with
  | nil => intro j entry; rfl
  | cons xj rest ih =>
    intro j entry
    simp only [ghInnerLoop]
    split
    · split <;> simp
    · rw [ih]
      split <;> simp

/-- Cells outside the write set of the triangular inner loop are left
unchanged: the loop started at counter `j ≤ i` writes only to `i*n + t`
with `j ≤ t ≤ i` and to `t*n + i` with `j ≤ t < i`. -/
theorem ghInnerLoop_frame (E : Expression R) (xi n i m : Nat) :
    ∀ (js : List Nat) (j : Nat) (entry : StackEntry R), j ≤ i →
      (∀ t, j ≤ t → t ≤ i → m ≠ i * n + t) →
      (∀ t, j ≤ t → t < i → m ≠ t * n + i) →
      ((ghInnerLoop E xi n i js j entry).second_mixed)[m]? =
        (entry.second_mixed)[m]? := by
  intro js
  induction js with
  | nil => intro j entry _ _ _; rfl
  | cons xj rest ih =>
    intro j entry hij hm1 hm2
    have hne1 : m ≠ i * n + j := hm1 j le_rfl hij
    simp only [ghInnerLoop]
    by_cases hji : j = i
    · subst hji
      simp only [if_pos rfl]
      have hcond : ¬ (0 < j ∧ j ≠ j) := by simp
      rw [if_neg hcond]
      exact List.getElem?_set_ne (Ne.symm hne1)
    · rw [if_neg hji]
      rw [ih (j + 1) _ (by omega) (fun t ht1 ht2 => hm1 t (by omega) ht2)
        (fun t ht1 ht2 => hm2 t (by omega) ht2)]
      by_cases hcond : 0 < i ∧ i ≠ j
      · have hji2 : j < i := by omega
        have hne2 : m ≠ j * n + i := hm2 j le_rfl hji2
        rw [if_pos hcond, List.getElem?_set_ne (Ne.symm hne2),
          List.getElem?_set_ne (Ne.symm hne1)]
      · rw [if_neg hcond, List.getElem?_set_ne (Ne.symm hne1)]

/-- When the triangular inner loop for row `i` passes position `j0 < i`,
the mirror store writes the strictly-upper cell `j0*n + i`, and no later
step of the same row overwrites it. -/
theorem ghInnerLoop_hit (E : Expression R) (xi n i j0 : Nat) (allIds : List Nat)
    (hj0i : j0 < i) (hin : i < n) (hj0len : j0 < allIds.length) :
    ∀ (d j : Nat) (entry : StackEntry R), j0 - j = d → j ≤ j0 →
      entry.second_mixed.length = n * n →
      ((ghInnerLoop E xi n i (allIds.drop j) j entry).second_mixed)[j0 * n + i]? =
        some (E.EvaluateDerivative2 xi (allIds.getD j0 0)) := by
  intro d
  induction d with
  | zero =>
    intro j entry hd hj hlen
    have hj' : j = j0 := by omega
    subst hj'
    rw [List.drop_eq_getElem_cons hj0len]
    simp only [ghInnerLoop]
    rw [if_neg (by omega : ¬ j = i)]
    rw [if_pos (by constructor <;> omega : 0 < i ∧ i ≠ j)]
    rw [ghInnerLoop_frame E xi n i _ _ (j + 1) _ (by omega)
      (fun t ht1 ht2 hcell => by
        have hp := (cell_index_inj hin (show t < n by omega)).mp hcell
        omega)
      (fun t ht1 ht2 hcell => by
        have hp := (cell_index_inj hin hin).mp hcell
        omega)]
    rw [List.getElem?_set_eq_of_lt]
    · rw [List.getD_eq_getElem _ _ hj0len]
    · rw [List.length_set, hlen]
      exact cell_index_lt (by omega) hin
  | succ d ih =>
    intro j entry hd hj hlen
    have hjlt : j < j0 := by omega
    rw [List.drop_eq_getElem_cons (by omega : j < allIds.length)]
    simp only [ghInnerLoop]
    rw [if_neg (by omega : ¬ j = i)]
    have hrec := ih (j + 1)
      (if 0 < i ∧ i ≠ j then
        { entry with second_mixed :=
            ((entry.second_mixed.set (i * n + j) (E.EvaluateDerivative2 xi
              (allIds.getD j 0))).set (j * n + i) (E.EvaluateDerivative2 xi
              (allIds.getD j 0))) }
      else
        { entry with second_mixed :=
            entry.second_mixed.set (i * n + j) (E.EvaluateDerivative2 xi
              (allIds.getD j 0)) })
      (by omega) (by omega) (by split <;> simp [hlen])
    by_cases hcond : 0 < i ∧ i ≠ j
    · rw [if_pos hcond]
      rw [if_pos hcond] at hrec
      rw [List.getD_eq_getElem _ _ (by omega : j < allIds.length)] at hrec
      exact hrec
    · rw [if_neg hcond]
      rw [if_neg hcond] at hrec
      rw [List.getD_eq_getElem _ _ (by omega : j < allIds.length)] at hrec
      exact hrec

/-- Rows of the outer Hessian loop that can never address cell `m` leave
it unchanged. -/
theorem ghOuterLoop_frame (E : Expression R) (n : Nat) (allIds : List Nat) (m : Nat) :
    ∀ (rest : List Nat) (i : Nat) (entry : StackEntry R) (h : Heap R),
      (∀ r t, i ≤ r → r < i + rest.length → r < n → t < n →
        m ≠ r * n + t ∧ m ≠ t * n + r) →
      i + rest.length ≤ n →
      (((ghOuterLoop E n allIds rest i entry h).1).second_mixed)[m]? =
        (entry.second_mixed)[m]? := by
  intro rest
  induction rest with
  | nil => intro i entry h _ _; rfl
  | cons xi rest2 ih =>
    intro i entry h hm hbound
    simp only [ghOuterLoop, List.length_cons] at *
    rw [ih (i + 1) _ _ (fun r t hr1 hr2 hr3 ht => hm r t (by omega) (by omega) hr3 ht)
      (by omega)]
    rw [ghInnerLoop_frame E xi n i m allIds 0 _ (Nat.zero_le i)
      (fun t ht1 ht2 => (hm i t le_rfl (by omega) (by omega) (by omega)).1)
      (fun t ht1 ht2 => (hm i t le_rfl (by omega) (by omega) (by omega)).2)]

/-- Walking the outer Hessian loop from row `i ≤ i0` over the remaining
rows, the strictly-upper cell `j0*n + i0` ends up holding the mirrored
mixed partial of row `i0`. -/
theorem ghOuterLoop_hit (E : Expression R) (n : Nat) (allIds : List Nat)
    (i0 j0 : Nat) (hj0 : j0 < i0) (hi0 : i0 < n) (hn : allIds.length = n) :
    ∀ (d i : Nat) (entry : StackEntry R) (h : Heap R), i0 - i = d → i ≤ i0 →
      entry.second_mixed.length = n * n →
      (((ghOuterLoop E n allIds (allIds.drop i) i entry h).1).second_mixed)[j0 * n + i0]? =
        some (E.EvaluateDerivative2 (allIds.getD i0 0) (allIds.getD j0 0)) := by
  intro d
  induction d with
  | zero =>
    intro i entry h hd hi hlen
    have hi' : i = i0 := by omega
    subst hi'
    rw [List.drop_eq_getElem_cons (by omega : i < allIds.length)]
    simp only [ghOuterLoop]
    rw [ghOuterLoop_frame E n allIds _ _ (i + 1) _ _
      (fun r t hr1 hr2 hr3 ht => by
        constructor
        · intro hcell
          have hp := (cell_index_inj hi0 ht).mp hcell
          omega
        · intro hcell
          have hp := (cell_index_inj hi0 hr3).mp hcell
          omega)
      (by rw [List.length_drop]; omega)]
    have hilen : i < allIds.length := by omega
    rw [List.getD_eq_getElem allIds 0 hilen]
    have hinner := ghInnerLoop_hit E allIds[i] n i j0 allIds hj0 hi0
      (by omega) j0 0 { entry with
        first := entry.first.set i (E.EvaluateDerivative1 allIds[i]) }
      (by omega) (Nat.zero_le j0) hlen
    rw [List.drop_zero] at hinner
    exact hinner
  | succ d ih =>
    intro i entry h hd hi hlen
    have hilt : i < i0 := by omega
    rw [List.drop_eq_getElem_cons (by omega : i < allIds.length)]
    simp only [ghOuterLoop]
    have hrec := ih (i + 1)
      (ghInnerLoop E (allIds.getD i 0) n i allIds 0
        { entry with
          first := entry.first.set i (E.EvaluateDerivative1 (allIds.getD i 0)) })
      (Heap.upd h (allIds.getD i 0) (fun info =>
        { info with dependence_level := info.dependence_level + 1 }))
      (by omega) (by omega)
      (by rw [ghInnerLoop_length]; exact hlen)
    rw [List.getD_eq_getElem _ _ (by omega : i < allIds.length)] at hrec
    exact hrec

/-- The id set recorded by an assignment: the target slot's existing ids
followed by the leaf ids the expression pushes, deduplicated in order. -/
def recordedIds (gs : GradientStructure R) (E : Expression R) : List Nat :=
  idsetInsertAll (gs.gradient_stack gs.stack_current).ids E.PushIdsList

/-- C5 (amended): under `GRADIENT_AND_HESSIAN` the inner loop does break
once `j` equals `i`, but every strictly-lower write is mirrored into the
symmetric upper cell, so after the dispatch each strictly-upper cell
`second_mixed[j*n + i]` with `j < i` holds the mirrored mixed partial of
leaves `i` and `j` instead of retaining its pre-dispatch value. -/
theorem C5_upper_triangle_mirrored (gs : GradientStructure R) (h : Heap R)
    (v : Var R) (E : Expression R) (hrec : gs.recording = true)
    (hlvl : gs.derivative_trace_level = DerivativeTraceLevel.GRADIENT_AND_HESSIAN) :
    ∀ gs2 h2, Assign_p gs h v E = Except.ok (gs2, h2) →
      ∀ j0 i0, j0 < i0 → i0 < (recordedIds gs E).length →
        (((gs2.gradient_stack gs.stack_current).second_mixed))[j0 *
            (recordedIds gs E).length + i0]? =
          some (E.EvaluateDerivative2 ((recordedIds gs E).getD i0 0)
            ((recordedIds gs E).getD j0 0)) := by
  intro gs2 h2 heq j0 i0 hj0 hi0
  obtain ⟨rec, lvl, sc, stack, mn, mx⟩ := gs
  replace hrec : rec = true := hrec
  replace hlvl : lvl = DerivativeTraceLevel.GRADIENT_AND_HESSIAN := hlvl
  subst hrec
  subst hlvl
  simp only [Assign_p, GradientStructure.NextIndex, Bool.true_eq, if_true,
    Except.ok.injEq, Prod.mk.injEq] at heq
  obtain ⟨rfl, rfl⟩ := heq
  rw [setEntry_gradient_stack_self]
  simp only [recordedIds] at hj0 hi0 ⊢
  have hmain := ghOuterLoop_hit E (idsetInsertAll (stack sc).ids E.PushIdsList).length
    (idsetInsertAll (stack sc).ids E.PushIdsList) i0 j0 hj0 hi0 rfl i0 0
    { w := some v.info,
      ids := idsetInsertAll (stack sc).ids E.PushIdsList,
      first := resizeFill (stack sc).first
        (idsetInsertAll (stack sc).ids E.PushIdsList).length 0,
      second := (stack sc).second, third := (stack sc).third,
      second_mixed := resizeFill (stack sc).second_mixed
        ((idsetInsertAll (stack sc).ids E.PushIdsList).length *
          (idsetInsertAll (stack sc).ids E.PushIdsList).length) 0,
      third_mixed := (stack sc).third_mixed, exp := (stack sc).exp } h rfl
    (Nat.zero_le i0) (resizeFill_length _ _ _)
  rw [List.drop_zero] at hmain
  exact hmain

/-- C5 counterexample: on a recording `GRADIENT_AND_HESSIAN` tape whose
target slot's `second_mixed` buffer is `[0, 0, 0, 0]` before the dispatch,
recording a two-leaf expression with unit mixed partials overwrites the
strictly-upper cell at flat index `0*2 + 1 = 1` with 1, so that cell does
not retain its pre-dispatch value 0. -/
theorem C5_counterexample :
    gsGH.recording = true ∧
    gsGH.derivative_trace_level = DerivativeTraceLevel.GRADIENT_AND_HESSIAN ∧
    Assign_p gsGH witHeap witVar witE2 = Except.ok (postGH.1, postGH.2) ∧
    ((gsGH.gradient_stack 0).second_mixed)[1]? = some 0 ∧
    ((postGH.1.gradient_stack 0).second_mixed)[1]? = some 1 ∧
    (0 : ℚ) ≠ 1 := by
  refine ⟨rfl, rfl, rfl, by decide, by decide, by norm_num⟩

/-- C5 witness: the amended statement evaluated on the concrete
`GRADIENT_AND_HESSIAN` fixture: the upper cell (row 0, column 1) holds the
mirrored unit mixed partial. -/
theorem C5_upper_triangle_mirrored_witness :
    ((postGH.1.gradient_stack 0).second_mixed)[1]? = some 1 := by
  have hmain := C5_upper_triangle_mirrored gsGH witHeap witVar witE2 rfl rfl
    postGH.1 postGH.2 rfl 0 1 (by omega) (by decide)
  simpa using hmain

/-- C6 (amended): after a recorded assignment, under `FIRST_ORDER` the
tape's `min_id` and `max_id` bound the id of every independent leaf of the
new entry, but under `GRADIENT` the recording leaves `min_id` and `max_id`
unchanged (the `GRADIENT` arm does not touch the observed id range). -/
theorem C6_id_range_update (gs : GradientStructure R) (h : Heap R)
    (v : Var R) (E : Expression R) (hrec : gs.recording = true) :
    (gs.derivative_trace_level = DerivativeTraceLevel.FIRST_ORDER →
      ∀ gs2 h2, Assign_p gs h v E = Except.ok (gs2, h2) →
        ∀ x ∈ (gs2.gradient_stack gs.stack_current).ids,
          gs2.min_id ≤ x ∧ x ≤ gs2.max_id) ∧
    (gs.derivative_trace_level = DerivativeTraceLevel.GRADIENT →
      ∀ gs2 h2, Assign_p gs h v E = Except.ok (gs2, h2) →
        gs2.min_id = gs.min_id ∧ gs2.max_id = gs.max_id) := by
  obtain ⟨rec, lvl, sc, stack, mn, mx⟩ := gs
  replace hrec : rec = true := hrec
  subst hrec
  constructor
  · intro hlvl gs2 h2 heq x hx
    replace hlvl : lvl = DerivativeTraceLevel.FIRST_ORDER := hlvl
    subst hlvl
    simp only [Assign_p, GradientStructure.NextIndex, Bool.true_eq, if_true,
      Except.ok.injEq, Prod.mk.injEq] at heq
    obtain ⟨rfl, rfl⟩ := heq
    rw [setEntry_gradient_stack_self, firstOrderLoop_ids] at hx
    exact firstOrderLoop_bounds _ _ _ _ _ _ _ hx
  · intro hlvl gs2 h2 heq
    replace hlvl : lvl = DerivativeTraceLevel.GRADIENT := hlvl
    subst hlvl
    simp only [Assign_p, GradientStructure.NextIndex, Bool.true_eq, if_true,
      Except.ok.injEq, Prod.mk.injEq] at heq
    obtain ⟨rfl, rfl⟩ := heq
    exact ⟨rfl, rfl⟩

/-- C6 counterexample: on a fresh recording `GRADIENT` tape whose observed
range is still `min_id = max_id = 0`, recording an assignment whose entry
holds the single leaf id 5 leaves `max_id = 0`, so the new entry's leaf id
is not bounded by `max_id` as the claim states for the `GRADIENT` level. -/
theorem C6_counterexample :
    gsGrad.recording = true ∧
    gsGrad.derivative_trace_level = DerivativeTraceLevel.GRADIENT ∧
    Assign_p gsGrad witHeap witVar witE5 = Except.ok (postGrad.1, postGrad.2) ∧
    (postGrad.1.gradient_stack 0).ids = [5] ∧
    postGrad.1.max_id = 0 ∧ ¬ (5 : Nat) ≤ 0 := by
  exact ⟨rfl, rfl, rfl, by decide, rfl, by omega⟩

/-- C6 witness: the `FIRST_ORDER` recording brackets the recorded leaf id
5, and the `GRADIENT` recording leaves the range of its tape unchanged. -/
theorem C6_id_range_update_witness :
    (postFO.1.min_id ≤ 5 ∧ 5 ≤ postFO.1.max_id) ∧
    (postGrad.1.min_id = gsGrad.min_id ∧ postGrad.1.max_id = gsGrad.max_id) :=
  ⟨(C6_id_range_update gsFO witHeap witVar witE5 rfl).1 rfl postFO.1 postFO.2 rfl
      5 (by decide),
   (C6_id_range_update gsGrad witHeap witVar witE5 rfl).2 rfl postGrad.1 postGrad.2 rfl⟩

/-- C4: the three `EvaluateDerivative` overloads of `Sinh` and `Cosh`
equal the symbolic chain-rule expansions for a unary node, with
derivative triple `(cosh, sinh, cosh)` for `Sinh` and `(sinh, cosh, sinh)`
for `Cosh`, evaluated at the inner expression's current value. -/
theorem C4_sinh_cosh_chain_rule (g : ℝ) (gd1 : Nat → ℝ) (gd2 : Nat → Nat → ℝ)
    (gd3 : Nat → Nat → Nat → ℝ) (a b c : Nat) :
    Sinh.EvaluateDerivative1 g gd1 a = chainRule1 (Real.cosh g) (gd1 a) ∧
    Sinh.EvaluateDerivative2 g gd1 gd2 a b
      = chainRule2 (Real.cosh g) (Real.sinh g) (gd1 a) (gd1 b) (gd2 a b) ∧
    Sinh.EvaluateDerivative3 g gd1 gd2 gd3 a b c
      = chainRule3 (Real.cosh g) (Real.sinh g) (Real.cosh g) (gd1 a) (gd1 b) (gd1 c)
          (gd2 a b) (gd2 a c) (gd2 b c) (gd3 a b c) ∧
    Cosh.EvaluateDerivative1 g gd1 a = chainRule1 (Real.sinh g) (gd1 a) ∧
    Cosh.EvaluateDerivative2 g gd1 gd2 a b
      = chainRule2 (Real.sinh g) (Real.cosh g) (gd1 a) (gd1 b) (gd2 a b) ∧
    Cosh.EvaluateDerivative3 g gd1 gd2 gd3 a b c
      = chainRule3 (Real.sinh g) (Real.cosh g) (Real.sinh g) (gd1 a) (gd1 b) (gd1 c)
          (gd2 a b) (gd2 a c) (gd2 b c) (gd3 a b c) := by
  unfold Sinh.EvaluateDerivative1 Sinh.EvaluateDerivative2 Sinh.EvaluateDerivative3
    Cosh.EvaluateDerivative1 Cosh.EvaluateDerivative2 Cosh.EvaluateDerivative3
    chainRule1 chainRule2 chainRule3
  exact ⟨by ring, by ring, by ring, by ring, by ring, by ring⟩

/-- C7: when the inner expression's second and third derivative answers
are permutation symmetric, the third-order `EvaluateDerivative` of `Sinh`
and of `Cosh` is invariant under every permutation of the three leaf
ids. -/
theorem C7_eval_d3_symmetry (g : ℝ) (gd1 : Nat → ℝ) (gd2 : Nat → Nat → ℝ)
    (gd3 : Nat → Nat → Nat → ℝ)
    (hsym2 : ∀ a b, gd2 a b = gd2 b a)
    (hsym3s : ∀ a b c, gd3 a b c = gd3 b a c)
    (hsym3r : ∀ a b c, gd3 a b c = gd3 a c b)
    (a b c : Nat) :
    (Sinh.EvaluateDerivative3 g gd1 gd2 gd3 a b c
        = Sinh.EvaluateDerivative3 g gd1 gd2 gd3 a c b ∧
      Sinh.EvaluateDerivative3 g gd1 gd2 gd3 a b c
        = Sinh.EvaluateDerivative3 g gd1 gd2 gd3 b a c ∧
      Sinh.EvaluateDerivative3 g gd1 gd2 gd3 a b c
        = Sinh.EvaluateDerivative3 g gd1 gd2 gd3 b c a ∧
      Sinh.EvaluateDerivative3 g gd1 gd2 gd3 a b c
        = Sinh.EvaluateDerivative3 g gd1 gd2 gd3 c a b ∧
      Sinh.EvaluateDerivative3 g gd1 gd2 gd3 a b c
        = Sinh.EvaluateDerivative3 g gd1 gd2 gd3 c b a) ∧
    (Cosh.EvaluateDerivative3 g gd1 gd2 gd3 a b c
        = Cosh.EvaluateDerivative3 g gd1 gd2 gd3 a c b ∧
      Cosh.EvaluateDerivative3 g gd1 gd2 gd3 a b c
        = Cosh.EvaluateDerivative3 g gd1 gd2 gd3 b a c ∧
      Cosh.EvaluateDerivative3 g gd1 gd2 gd3 a b c
        = Cosh.EvaluateDerivative3 g gd1 gd2 gd3 b c a ∧
      Cosh.EvaluateDerivative3 g gd1 gd2 gd3 a b c
        = Cosh.EvaluateDerivative3 g gd1 gd2 gd3 c a b ∧
      Cosh.EvaluateDerivative3 g gd1 gd2 gd3 a b c
        = Cosh.EvaluateDerivative3 g gd1 gd2 gd3 c b a) := by
  have g3acb : gd3 a c b = gd3 a b c := (hsym3r a b c).symm
  have g3bac : gd3 b a c = gd3 a b c := (hsym3s a b c).symm
  have g3cab : gd3 c a b = gd3 a b c := (hsym3s c a b).trans g3acb
  have g3bca : gd3 b c a = gd3 a b c :=
    (hsym3s b c a).trans ((hsym3r c b a).trans g3cab)
  have g3cba : gd3 c b a = gd3 a b c := (hsym3r c b a).trans g3cab
  refine ⟨⟨?_, ?_, ?_, ?_, ?_⟩, ⟨?_, ?_, ?_, ?_, ?_⟩⟩
  · unfold Sinh.EvaluateDerivative3; rw [hsym2 c b, g3acb]; ring
  · unfold Sinh.EvaluateDerivative3; rw [hsym2 b a, g3bac]; ring
  · unfold Sinh.EvaluateDerivative3; rw [hsym2 c a, hsym2 b a, g3bca]; ring
  · unfold Sinh.EvaluateDerivative3; rw [hsym2 c a, hsym2 c b, g3cab]; ring
  · unfold Sinh.EvaluateDerivative3; rw [hsym2 c b, hsym2 b a, hsym2 c a, g3cba]; ring
  · unfold Cosh.EvaluateDerivative3; rw [hsym2 c b, g3acb]; ring
  · unfold Cosh.EvaluateDerivative3; rw [hsym2 b a, g3bac]; ring
  · unfold Cosh.EvaluateDerivative3; rw [hsym2 c a, hsym2 b a, g3bca]; ring
  · unfold Cosh.EvaluateDerivative3; rw [hsym2 c a, hsym2 c b, g3cab]; ring
  · unfold Cosh.EvaluateDerivative3; rw [hsym2 c b, hsym2 b a, hsym2 c a, g3cba]; ring

/-- C7 witness: at a concrete symmetric inner expression (all derivative
answers constantly 1), swapping the last two leaf ids leaves the
third-order derivative of both nodes unchanged. -/
theorem C7_eval_d3_symmetry_witness :
    Sinh.EvaluateDerivative3 0 (fun _ => 1) (fun _ _ => 1) (fun _ _ _ => 1) 0 1 2
      = Sinh.EvaluateDerivative3 0 (fun _ => 1) (fun _ _ => 1) (fun _ _ _ => 1) 0 2 1 ∧
    Cosh.EvaluateDerivative3 0 (fun _ => 1) (fun _ _ => 1) (fun _ _ _ => 1) 0 1 2
      = Cosh.EvaluateDerivative3 0 (fun _ => 1) (fun _ _ => 1) (fun _ _ _ => 1) 0 2 1 :=
  ⟨(C7_eval_d3_symmetry 0 (fun _ => 1) (fun _ _ => 1) (fun _ _ _ => 1)
      (fun _ _ => rfl) (fun _ _ _ => rfl) (fun _ _ _ => rfl) 0 1 2).1.1,
   (C7_eval_d3_symmetry 0 (fun _ => 1) (fun _ _ => 1) (fun _ _ _ => 1)
      (fun _ _ => rfl) (fun _ _ _ => rfl) (fun _ _ _ => rfl) 0 1 2).2.1⟩

/-- C8: for a value strictly between the bounds, the sine transformation
recovers it exactly: `Internal2External (External2Internal v) = v` over
the reals. -/
theorem C8_sin_transformation_round_trip (v min_ max_ : ℝ)
    (h1 : min_ < v) (h2 : v < max_) :
    SinParameterTransformation.Internal2External
      (SinParameterTransformation.External2Internal v min_ max_) min_ max_ = v := by
  have hd : (0 : ℝ) < max_ - min_ := by linarith
  have hne : max_ - min_ ≠ 0 := ne_of_gt hd
  unfold SinParameterTransformation.External2Internal
    SinParameterTransformation.Internal2External
  have harg : 2 * v / (max_ - min_) - min_ / (max_ - min_) - max_ / (max_ - min_)
      = (2 * v - min_ - max_) / (max_ - min_) := by
    field_simp
  rw [harg, Real.sin_arcsin]
  · field_simp
    ring
  · rw [le_div_iff₀ hd]
    linarith
  · rw [div_le_one hd]
    linarith

/-- C8 witness: scenario 6 with bounds 0 and 10 and value 7. -/
theorem C8_sin_transformation_round_trip_witness :
    SinParameterTransformation.Internal2External
      (SinParameterTransformation.External2Internal 7 0 10) 0 10 = 7 :=
  C8_sin_transformation_round_trip 7 0 10 (by norm_num) (by norm_num)

/-- C9: the source's `DerivativeInternal2External` of the tanh
transformation is not the derivative of its `Internal2External`: with
bounds 0 and 2, at the interior point 1/2 the true derivative is 4/3 while
the source formula yields 4/9. -/
theorem C9_tanh_derivative_mismatch :
    HasDerivAt (fun val => TanhParameterTransformation.Internal2External val 0 2)
      (4 / 3) (1 / 2) ∧
    TanhParameterTransformation.DerivativeInternal2External (1 / 2) 0 2 = 4 / 9 ∧
    (4 / 3 : ℝ) ≠ 4 / 9 := by
  refine ⟨?_, ?_, by norm_num⟩
  · have hfun : (fun val => TanhParameterTransformation.Internal2External val 0 2)
        = fun val : ℝ => 1 / 2 * Real.log (val / (2 - val)) := by
      funext val
      unfold TanhParameterTransformation.Internal2External atanh
      have harg : (1 + (2 * (val - 0) / (2 - 0) - 1)) / (1 - (2 * (val - 0) / (2 - 0) - 1))
          = val / (2 - val) := by
        have hin : 2 * (val - 0) / (2 - 0) - 1 = val - 1 := by ring
        rw [hin]
        ring_nf
      rw [harg]
    rw [hfun]
    have hu : HasDerivAt (fun val : ℝ => val / (2 - val))
        ((1 * (2 - 1 / 2) - 1 / 2 * (0 - 1)) / (2 - 1 / 2) ^ 2) (1 / 2) :=
      (hasDerivAt_id (1 / 2 : ℝ)).div
        ((hasDerivAt_const (1 / 2 : ℝ) 2).sub (hasDerivAt_id (1 / 2 : ℝ)))
        (by norm_num)
    have hlog := hu.log (by norm_num : (1 / 2 : ℝ) / (2 - 1 / 2) ≠ 0)
    have hfull := hlog.const_mul (1 / 2 : ℝ)
    convert hfull using 1
    norm_num
  · unfold TanhParameterTransformation.DerivativeInternal2External
    norm_num

/-- C10: `SetBounds` marks the variable bounded and replaces the current
value with the midpoint of the new bounds exactly when it lies below the
minimum, above the maximum, or is exactly zero; otherwise the value is
unchanged. -/
theorem C10_SetBounds_midpoint (v : Var R) (h : Heap R) (minb maxb : R)
    (hmm : minb ≤ maxb) :
    (v.SetBounds h minb maxb).1.bounded_m = true ∧
    ((v.SetBounds h minb maxb).2 v.info).vvalue =
      (if (h v.info).vvalue < minb ∨ (h v.info).vvalue > maxb ∨ (h v.info).vvalue = 0
        then (minb + maxb) / 2 else (h v.info).vvalue) := by
  unfold Var.SetBounds
  by_cases hc : (h v.info).vvalue < minb ∨ (h v.info).vvalue > maxb ∨ (h v.info).vvalue = 0
  · rw [if_pos hc, if_pos hc]
    refine ⟨rfl, ?_⟩
    unfold Var.SetValue Heap.upd
    have hmid_lo : ¬ ((minb + maxb) / 2 < minb) := by push_neg; linarith
    have hmid_hi : ¬ ((minb + maxb) / 2 > maxb) := by push_neg; linarith
    simp only [Bool.not_eq_true, ne_eq, not_true_eq_false, if_neg hmid_lo, if_neg hmid_hi]
    simp
  · rw [if_neg hc, if_neg hc]
    exact ⟨rfl, rfl⟩

/-- C10 witness: a variable whose value is exactly 0 bounded to the
interval from 2 to 4 is moved to the midpoint 3 and marked bounded. -/
theorem C10_SetBounds_midpoint_witness :
    (witVar.SetBounds witHeap 2 4).1.bounded_m = true ∧
    ((witVar.SetBounds witHeap 2 4).2 witVar.info).vvalue = 3 := by
  have hmain := C10_SetBounds_midpoint witVar witHeap 2 4 (by norm_num)
  refine ⟨hmain.1, ?_⟩
  rw [hmain.2]
  norm_num [witHeap, witVar, blankInfo]

end ATL
